import Mathlib

/-!
# Wedding List Organiser — model-layer verification

A shallow embedding of `model.py` (classes `Product`, `GiftItem`,
`WeddingList`) and of the bootstrap insert in `wedding_lister.py`
(`init_db`), together with theorems checking the specification's claims
about them.

Conventions of the embedding:
* The sqlite database is a `DB` value holding the two tables (`products`,
  `wedding_gift`) as lists of rows in row order; an SQL `UPDATE ... WHERE
  rowid = ?` maps the row list, `DELETE` filters it, `INSERT` appends.
* Python methods that mutate `self` and the database are functions from the
  old `(object, DB)` to `Option Err × object × DB`: the first component is
  the exception raised (`none` when the call returns normally), and the
  object/DB components are the post-state.  When an exception is raised the
  object and the database pass through unchanged exactly when the Python
  code raises before assigning or executing SQL, which is the case at every
  `raise` in `model.py`.
* Python numbers attached to a price are embedded as `ℚ`: the repository
  stores both `int` prices (minor units) and, at bootstrap, the result of
  the true division `price / 100.`; `ℚ` represents both exactly on the
  inputs exercised here.
* Fallible constructors/readers return `Except Err _`.
-/

namespace WeddingLister

/-- The exceptions the modelled code can raise: `OutOfStock` and
`UnknownProduct` from `model.py`; `priceMissing` for the
`Exception("Price is missing! ...")` in `Product.__init__`; `parseFailure`
for the `AttributeError` raised there when `price_re.match` returns `None`;
`notInList` for the `ValueError` raised by `list.index` in
`WeddingList.purchase_gift`. -/
inductive Err where
  | outOfStock
  | unknownProduct
  | priceMissing
  | parseFailure
  | notInList
  deriving DecidableEq, Repr

/-- Numeric value of a decimal digit character, as `int()` reads one digit. -/
def digitVal (c : Char) : Nat := c.toNat - '0'.toNat

/-- Numeric value of a string of decimal digits, as Python `int()` computes
it (leading zeros allowed). -/
def digitsVal (ds : List Char) : Nat := ds.foldl (fun a c => a * 10 + digitVal c) 0

/-- Embedding of `re.compile(r'(\d+)\.(\d+)GBP').match(s)` from
`Product.__init__`, returning the numeric values of the two digit groups.
`re.match` anchors at the start of the string and ignores trailing
characters.  In any successful match each `\d+` group is followed by a
non-digit (`.` and `G` respectively), so the greedy maximal-munch run of
each group is the only candidate and the regex engine's backtracking can
never produce a different match: taking the longest digit prefix twice is
an exact embedding. -/
def priceMatch (s : List Char) : Option (Nat × Nat) :=
  let d1 := s.takeWhile Char.isDigit
  let r1 := s.dropWhile Char.isDigit
  if d1.isEmpty then none else
  match r1 with
  | '.' :: r2 =>
      let d2 := r2.takeWhile Char.isDigit
      let r3 := r2.dropWhile Char.isDigit
      if d2.isEmpty then none
      else if r3.take 3 = ['G', 'B', 'P'] then some (digitsVal d1, digitsVal d2)
      else none
  | _ => none

/-- The `Product` entity of `model.py` (attributes set by
`Product.__init__`; the `db_conn` attribute is the threaded `DB`). -/
structure Product where
  product_id : Int
  name : String
  brand : String
  price : ℚ
  in_stock_quantity : Int
  deriving DecidableEq, Repr

/-- The `from_dict` argument of `Product.__init__`: the fields the
constructor reads.  `int_price` and `price` are optional because the code
branches on their presence. -/
structure ProductDict where
  id : Int
  name : String
  brand : String
  int_price : Option ℚ
  price : Option String
  in_stock_quantity : Int

/-- Embedding of the `from_dict` branch of `Product.__init__`:
`int_price` is passed through when present; otherwise a `price` string is
parsed by `priceMatch` (an unparseable string raises `AttributeError`
because `price_match` is `None`); with neither field present
`Exception("Price is missing! ...")` is raised.  A raise inside `__init__`
means no object reaches the caller, hence the `Except`. -/
def Product.ofDict (d : ProductDict) : Except Err Product :=
  match d.int_price with
  | some v => .ok ⟨d.id, d.name, d.brand, v, d.in_stock_quantity⟩
  | none =>
    match d.price with
    | some s =>
      match priceMatch s.data with
      | some wf => .ok ⟨d.id, d.name, d.brand, ((wf.1 * 100 + wf.2 : ℕ) : ℚ), d.in_stock_quantity⟩
      | none => .error .parseFailure
    | none => .error .priceMissing

/-- A row of the `products` table: `rowid, name, brand, price,
in_stock_quantity`. -/
structure ProductRow where
  rowid : Int
  name : String
  brand : String
  price : ℚ
  in_stock_quantity : Int
  deriving DecidableEq, Repr

/-- A row of the `wedding_gift` table: `rowid, product_id, purchased`
(the flag is stored as an integer, written 0/1). -/
structure GiftRow where
  rowid : Int
  product_id : Int
  purchased : Int
  deriving DecidableEq, Repr

/-- The sqlite database: both tables, rows in row order. -/
structure DB where
  products : List ProductRow
  wedding_gift : List GiftRow
  deriving DecidableEq, Repr

/-- `UPDATE products SET in_stock_quantity = ? WHERE rowid = ?` + commit. -/
def DB.updateProductStock (db : DB) (pid : Int) (q : Int) : DB :=
  { db with products := db.products.map fun r =>
      if r.rowid = pid then { r with in_stock_quantity := q } else r }

/-- `UPDATE wedding_gift SET purchased = ? WHERE rowid = ?` + commit. -/
def DB.updateGiftPurchased (db : DB) (gid : Int) (v : Int) : DB :=
  { db with wedding_gift := db.wedding_gift.map fun r =>
      if r.rowid = gid then { r with purchased := v } else r }

/-- `DELETE FROM wedding_gift WHERE rowid = ?` + commit. -/
def DB.deleteGift (db : DB) (gid : Int) : DB :=
  { db with wedding_gift := db.wedding_gift.filter fun r => r.rowid ≠ gid }

/-- sqlite's rowid assignment for an insert into `wedding_gift`
(`cur.lastrowid`): one more than the largest rowid in use. -/
def DB.nextGiftRowid (db : DB) : Int :=
  (db.wedding_gift.foldl (fun m r => max m r.rowid) 0) + 1

/-- `INSERT INTO wedding_gift (product_id, purchased) VALUES (?, ?)` +
commit; returns the new database and `cur.lastrowid`. -/
def DB.insertGift (db : DB) (pid : Int) (v : Int) : DB × Int :=
  let gid := db.nextGiftRowid
  ({ db with wedding_gift := db.wedding_gift ++ [⟨gid, pid, v⟩] }, gid)

/-- The stored stock quantity for a product identity: the
`in_stock_quantity` of the (first) `products` row with that rowid. -/
def DB.storedStock (db : DB) (pid : Int) : Option Int :=
  (db.products.find? fun r => r.rowid == pid).map ProductRow.in_stock_quantity

/-- The stored purchased flag for a gift identity: the `purchased` field of
the (first) `wedding_gift` row with that rowid. -/
def DB.storedPurchased (db : DB) (gid : Int) : Option Int :=
  (db.wedding_gift.find? fun r => r.rowid == gid).map GiftRow.purchased

/-- Embedding of `Product.purchase`: when `in_stock_quantity > 0` the
quantity is decremented, written back keyed by `rowid = product_id` and
committed; otherwise `OutOfStock` is raised before any assignment or SQL,
so object and database pass through unchanged. -/
def Product.purchase (p : Product) (db : DB) : Option Err × Product × DB :=
  if 0 < p.in_stock_quantity then
    let p2 := { p with in_stock_quantity := p.in_stock_quantity - 1 }
    (none, p2, db.updateProductStock p.product_id p2.in_stock_quantity)
  else
    (some .outOfStock, p, db)

/-- The dictionary `Product.get_gift_repository` builds for a `products`
row (note the stored `price` column is passed as `int_price`). -/
def rowDict (r : ProductRow) : ProductDict :=
  { id := r.rowid, name := r.name, brand := r.brand,
    int_price := some r.price, price := none,
    in_stock_quantity := r.in_stock_quantity }

/-- The `Product` that `Product.__init__` yields on `rowDict r` (the
`int_price` branch, which always succeeds). -/
def rowProduct (r : ProductRow) : Product :=
  { product_id := r.rowid, name := r.name, brand := r.brand,
    price := r.price, in_stock_quantity := r.in_stock_quantity }

/-- Embedding of `Product.get_gift_repository`: `SELECT rowid, name, brand,
price, in_stock_quantity FROM products`, one `Product` per row in row
order. -/
def Product.get_gift_repository (db : DB) : List Product :=
  db.products.map rowProduct

/-- Embedding of `Product.get_product_by_id`: filter the repository by
`product_id`, take element `[0]`, and turn the `IndexError` of an empty
filter into `UnknownProduct`. -/
def Product.get_product_by_id (db : DB) (pid : Int) : Except Err Product :=
  match (Product.get_gift_repository db).filter (fun p => p.product_id == pid) with
  | [] => .error .unknownProduct
  | p :: _ => .ok p

/-- The `GiftItem` entity of `model.py` (`gift_id`, `product`,
`_purchased`). -/
structure GiftItem where
  gift_id : Int
  product : Product
  purchased : Bool
  deriving DecidableEq, Repr

/-- Embedding of `GiftItem.purchase`: delegates to
`self.product.purchase()`; an exception there propagates before
`_purchased` is assigned and before any SQL on `wedding_gift`; on normal
return the flag is set in memory and the `wedding_gift` row is updated to
1 and committed. -/
def GiftItem.purchase (g : GiftItem) (db : DB) : Option Err × GiftItem × DB :=
  match Product.purchase g.product db with
  | (some e, p2, db2) => (some e, { g with product := p2 }, db2)
  | (none, p2, db2) =>
      (none, { g with product := p2, purchased := true },
       db2.updateGiftPurchased g.gift_id 1)

/-- Embedding of `GiftItem.remove`: `DELETE FROM wedding_gift WHERE rowid
= ?` + commit. -/
def GiftItem.remove (g : GiftItem) (db : DB) : DB :=
  db.deleteGift g.gift_id

/-- Embedding of the factory `GiftItem.get_new_gift_item`: inserts a row
`(product_id, purchased=0)` and returns `GiftItem(db, lastrowid, product)`
whose `purchased` defaults to `False`. -/
def GiftItem.get_new_gift_item (db : DB) (p : Product) : GiftItem × DB :=
  let ins := db.insertGift p.product_id 0
  ({ gift_id := ins.2, product := p, purchased := false }, ins.1)

/-- Embedding of `WeddingList.get_purchased_gift`:
`[a for a in self if a.purchased]`. -/
def WeddingList.get_purchased_gift (l : List GiftItem) : List GiftItem :=
  l.filter fun a => a.purchased

/-- Embedding of `WeddingList.get_non_purchased_gift`:
`[a for a in self if not a.purchased]`. -/
def WeddingList.get_non_purchased_gift (l : List GiftItem) : List GiftItem :=
  l.filter fun a => !a.purchased

/-- Embedding of `WeddingList.purchase_gift`:
`self[self.index(gift)].purchase()`.  `list.index` scans for the first
element equal to `gift` and raises `ValueError` (`notInList`) when there
is none; the found element is purchased in place.  Object equality is
embedded as structural equality on `GiftItem` values. -/
def WeddingList.purchase_gift (l : List GiftItem) (g : GiftItem) (db : DB) :
    Option Err × List GiftItem × DB :=
  match l with
  | [] => (some .notInList, [], db)
  | a :: l2 =>
      if a = g then
        ((GiftItem.purchase a db).1, (GiftItem.purchase a db).2.1 :: l2,
         (GiftItem.purchase a db).2.2)
      else
        ((WeddingList.purchase_gift l2 g db).1, a :: (WeddingList.purchase_gift l2 g db).2.1,
         (WeddingList.purchase_gift l2 g db).2.2)

/-- Sequencing of a fallible builder over a list, as a Python list
comprehension evaluates it: elements in order, the first exception
aborting the whole comprehension. -/
def mapExcept (f : α → Except Err β) : List α → Except Err (List β)
  | [] => .ok []
  | a :: l =>
    match f a with
    | .error e => .error e
    | .ok b =>
      match mapExcept f l with
      | .error e => .error e
      | .ok bs => .ok (b :: bs)

/-- The `GiftItem` built by `WeddingList.get_wedding_gifts` for one
`wedding_gift` row: the product is resolved through
`Product.get_product_by_id` (raising `UnknownProduct` when absent), and
`purchased = (gift[2] > 0)`. -/
def giftOfRow (db : DB) (g : GiftRow) : Except Err GiftItem :=
  match Product.get_product_by_id db g.product_id with
  | .error e => .error e
  | .ok p => .ok { gift_id := g.rowid, product := p, purchased := decide (0 < g.purchased) }

/-- Embedding of `WeddingList.get_wedding_gifts`: `SELECT rowid,
product_id, purchased FROM wedding_gift`, one `GiftItem` per row in row
order, the first unresolvable product reference raising
`UnknownProduct`. -/
def WeddingList.get_wedding_gifts (db : DB) : Except Err (List GiftItem) :=
  mapExcept (giftOfRow db) db.wedding_gift

/-- The `products` row written for one catalogue product by `init_db` in
`wedding_lister.py`: `INSERT INTO products (rowid, name, brand, price,
in_stock_quantity) VALUES (gift.product_id, gift.name, gift.brand,
gift.price / 100., gift.in_stock_quantity)` — note the true division by
`100.`. -/
def bootstrapRow (g : Product) : ProductRow :=
  { rowid := g.product_id, name := g.name, brand := g.brand,
    price := g.price / 100, in_stock_quantity := g.in_stock_quantity }

/-- Embedding of the bootstrap insert of `init_db` on a fresh store (the
branch taken when the `products` table does not exist yet): the catalogue
products are written through `bootstrapRow`, and `wedding_gift` starts
empty. -/
def init_db (catalogue : List Product) : DB :=
  { products := catalogue.map bootstrapRow, wedding_gift := [] }

/-- The core operations that touch the store, for stating invariants that
quantify over every operation of `model.py`. -/
inductive CoreOp where
  | productPurchase (p : Product)
  | giftPurchase (g : GiftItem)
  | newGift (p : Product)
  | removeGift (g : GiftItem)

/-- The database after running one core operation (exceptions leave the
returned post-state in place, as in the embeddings above). -/
def CoreOp.applyDB : CoreOp → DB → DB
  | .productPurchase p, db => (Product.purchase p db).2.2
  | .giftPurchase g, db => (GiftItem.purchase g db).2.2
  | .newGift p, db => (GiftItem.get_new_gift_item db p).2
  | .removeGift g, db => GiftItem.remove g db

/-! ## Concrete fixtures used by witnesses and counterexamples -/

/-- A `products` row: id 1, "Tea pot", stock 2 (mirrors the repository's
fixture data). -/
def exRow : ProductRow := ⟨1, "Tea pot", "Le Creuset", 1250, 2⟩

/-- The product as loaded from `exRow` (stock 2). -/
def exProduct : Product := ⟨1, "Tea pot", "Le Creuset", 1250, 2⟩

/-- A store holding `exRow` and one unpurchased gift row for it. -/
def exDB : DB := ⟨[exRow], [⟨1, 1, 0⟩]⟩

/-- A gift for product 1 with stock 2 (as an in-memory object). -/
def cexGiftA : GiftItem := ⟨1, ⟨1, "Tea pot", "Le Creuset", 1250, 2⟩, false⟩

/-- A gift with the SAME identity (`gift_id` 1) as `cexGiftA` but whose
product object carries a different stock value, so the two objects are not
equal. -/
def cexGiftB : GiftItem := ⟨1, ⟨1, "Tea pot", "Le Creuset", 1250, 4⟩, false⟩

/-- A catalogue description with price string `"12.5GBP"` (one fractional
digit). -/
def dict125 : ProductDict := ⟨2, "A", "B", none, some "12.5GBP", 1⟩

/-- A catalogue description with price string `"12.500GBP"` (three
fractional digits). -/
def dict12500 : ProductDict := ⟨3, "A", "B", none, some "12.500GBP", 1⟩

/-- A catalogue description with a non-GBP currency code. -/
def dictUSD : ProductDict := ⟨4, "A", "B", none, some "12.50USD", 1⟩

/-- A catalogue description with no price field at all. -/
def wDictNone : ProductDict := ⟨7, "W", "X", none, none, 3⟩

/-- A catalogue description with price string `"12.50GBP"`, as the
bootstrap reads one from `products.json`. -/
def bootDict : ProductDict := ⟨1, "Tea pot", "Le Creuset", none, some "12.50GBP", 2⟩

/-- The product built from `bootDict` (price 1250 minor units). -/
def bootProduct : Product := ⟨1, "Tea pot", "Le Creuset", 1250, 2⟩

/-! ## Helper lemmas about store lookups -/

theorem find?_stockUpdate (l : List ProductRow) (pid q : Int) :
    (l.map fun r => if r.rowid = pid then { r with in_stock_quantity := q } else r).find?
        (fun r => r.rowid == pid) =
      (l.find? fun r => r.rowid == pid).map
        (fun r => { r with in_stock_quantity := q }) := by
  induction l with
  | nil => rfl
  | cons r l ih =>
    by_cases h : r.rowid = pid
    · simp [List.find?_cons, h]
    · have hb : (r.rowid == pid) = false := by simpa using h
      simp [List.find?_cons, h, hb, ih]

theorem storedStock_updateProductStock (db : DB) (pid q : Int) :
    (db.updateProductStock pid q).storedStock pid =
      (db.storedStock pid).map fun _ => q := by
  unfold DB.storedStock DB.updateProductStock
  rw [find?_stockUpdate]
  cases db.products.find? fun r => r.rowid == pid <;> rfl

theorem find?_giftUpdate (l : List GiftRow) (gid gid' w : Int) :
    (l.map fun r => if r.rowid = gid' then { r with purchased := w } else r).find?
        (fun r => r.rowid == gid) =
      (l.find? fun r => r.rowid == gid).map
        (fun r => if gid = gid' then { r with purchased := w } else r) := by
  induction l with
  | nil => rfl
  | cons r l ih =>
    by_cases h : r.rowid = gid
    · by_cases h' : r.rowid = gid' <;>
        simp [List.find?_cons, h, h ▸ h']
    · have hb : (r.rowid == gid) = false := by simpa using h
      by_cases h' : r.rowid = gid'
      · have hgg : ¬ gid = gid' := fun e => h (h'.trans e.symm)
        have hgg' : ¬ gid' = gid := fun e => hgg e.symm
        simp [List.find?_cons, h', hb, hgg', ih]
      · simp [List.find?_cons, h', hb, ih]

theorem storedPurchased_updateGiftPurchased (db : DB) (gid gid' w : Int) :
    (db.updateGiftPurchased gid' w).storedPurchased gid =
      (db.storedPurchased gid).map fun v => if gid = gid' then w else v := by
  unfold DB.storedPurchased DB.updateGiftPurchased
  rw [find?_giftUpdate]
  cases db.wedding_gift.find? fun r => r.rowid == gid <;>
    by_cases h : gid = gid' <;> simp [h]

theorem storedPurchased_updateProductStock (db : DB) (pid q gid : Int) :
    (db.updateProductStock pid q).storedPurchased gid = db.storedPurchased gid := rfl

theorem storedStock_updateGiftPurchased (db : DB) (gid w pid : Int) :
    (db.updateGiftPurchased gid w).storedStock pid = db.storedStock pid := rfl

theorem find?_filter_keep (l : List GiftRow) (gid gid2 : Int) (h : gid ≠ gid2) :
    (l.filter fun r => decide (r.rowid ≠ gid2)).find? (fun r => r.rowid == gid) =
      l.find? (fun r => r.rowid == gid) := by
  induction l with
  | nil => rfl
  | cons r l ih =>
    by_cases h2 : r.rowid = gid2
    · have hb : (r.rowid == gid) = false :=
        beq_eq_false_iff_ne.mpr (by rw [h2]; exact fun e => h e.symm)
      rw [List.filter_cons_of_neg (by simpa using h2)]
      simp only [List.find?_cons, hb]
      exact ih
    · rw [List.filter_cons_of_pos (by simpa using h2)]
      simp only [List.find?_cons]
      cases hpr : (r.rowid == gid)
      · exact ih
      · rfl

theorem find?_filter_gone (l : List GiftRow) (gid : Int) :
    (l.filter fun r => decide (r.rowid ≠ gid)).find? (fun r => r.rowid == gid) = none := by
  rw [List.find?_eq_none]
  intro r hr
  have := (List.mem_filter.mp hr).2
  simpa using of_decide_eq_true this

theorem le_foldlMax (l : List GiftRow) (m : Int) :
    m ≤ l.foldl (fun m r => max m r.rowid) m := by
  induction l generalizing m with
  | nil => exact le_refl m
  | cons r l ih => exact le_trans (le_max_left m r.rowid) (ih (max m r.rowid))

theorem mem_le_foldlMax (l : List GiftRow) (m : Int) :
    ∀ r ∈ l, r.rowid ≤ l.foldl (fun m r => max m r.rowid) m := by
  induction l generalizing m with
  | nil => intro r hr; cases hr
  | cons a l ih =>
    intro r hr
    rw [List.foldl_cons]
    rcases List.mem_cons.mp hr with h | h
    · rw [h]
      exact le_trans (le_max_right m a.rowid) (le_foldlMax l (max m a.rowid))
    · exact ih (max m a.rowid) r h

/-! ## Claim theorems -/

/-- C1: `Product.purchase` raises Out-Of-Stock if and only if
`in_stock_quantity` is 0 at the time of the call (under the invariant that
stock is non-negative); on that failure it performs no mutation and no
persistence write — the returned object and store are the very ones passed
in, so a zero stock stays 0 in memory and in the store; otherwise, with
stock `N > 0`, it returns normally and decrements by exactly one, so the
in-memory quantity and the stored quantity keyed by the product's identity
(provided the product has a row) both equal `N - 1`. -/
theorem product_purchase_spec (p : Product) (db : DB)
    (hinv : 0 ≤ p.in_stock_quantity) :
    ((Product.purchase p db).1 = some Err.outOfStock ↔ p.in_stock_quantity = 0)
    ∧ (p.in_stock_quantity = 0 → Product.purchase p db = (some Err.outOfStock, p, db))
    ∧ (∀ N : Int, p.in_stock_quantity = N → 0 < N →
        (Product.purchase p db).1 = none
        ∧ (Product.purchase p db).2.1.in_stock_quantity = N - 1
        ∧ ((∃ r ∈ db.products, r.rowid = p.product_id) →
            ((Product.purchase p db).2.2).storedStock p.product_id = some (N - 1))) := by
  unfold Product.purchase
  by_cases hq : 0 < p.in_stock_quantity
  · rw [if_pos hq]
    refine ⟨⟨fun h => by simp at h, fun h0 => absurd hq (by omega)⟩,
      fun h0 => absurd hq (by omega), fun N hN hNpos => ⟨rfl, by simp [hN], ?_⟩⟩
    rintro ⟨r, hr, he⟩
    have hsome : (db.products.find? fun r => r.rowid == p.product_id).isSome :=
      List.find?_isSome.mpr ⟨r, hr, by simp [he]⟩
    obtain ⟨r2, hr2⟩ := Option.isSome_iff_exists.mp hsome
    show (DB.storedStock _ _) = _
    rw [storedStock_updateProductStock]
    unfold DB.storedStock
    rw [hr2]
    simp [hN]
  · rw [if_neg hq]
    have h0 : p.in_stock_quantity = 0 := le_antisymm (not_lt.mp hq) hinv
    exact ⟨by simp [h0], fun _ => rfl, fun N hN hNpos => absurd hNpos (by omega)⟩

/-- C1 witness: the theorem instantiated at `exProduct` (stock 2) and
`exDB`, the non-negativity hypothesis discharged by computation. -/
theorem product_purchase_spec_witness :
    ((Product.purchase exProduct exDB).1 = some Err.outOfStock ↔ exProduct.in_stock_quantity = 0)
    ∧ (exProduct.in_stock_quantity = 0 →
        Product.purchase exProduct exDB = (some Err.outOfStock, exProduct, exDB))
    ∧ (∀ N : Int, exProduct.in_stock_quantity = N → 0 < N →
        (Product.purchase exProduct exDB).1 = none
        ∧ (Product.purchase exProduct exDB).2.1.in_stock_quantity = N - 1
        ∧ ((∃ r ∈ exDB.products, r.rowid = exProduct.product_id) →
            ((Product.purchase exProduct exDB).2.2).storedStock exProduct.product_id
              = some (N - 1))) :=
  product_purchase_spec exProduct exDB (by decide)

/-- C2: `GiftItem.purchase` delegates to the referenced product's
`purchase`; when that raises (Out-Of-Stock being the only exception it
raises, whenever the stock is not positive) the same exception propagates
and the call returns the gift object untouched (its `purchased` flag as it
was, in particular still `false`) and the store untouched — no write to
the gift row.  When the product purchase succeeds, the call returns
normally with `purchased = true` in memory, and the resulting store is the
gift-flag update applied AFTER the stock-decrement update (the source
ordering of the two commits); the stored flag keyed by gift identity is 1
provided the gift has a row. -/
theorem giftitem_purchase_spec (g : GiftItem) (db : DB) :
    (∀ e, (Product.purchase g.product db).1 = some e →
        GiftItem.purchase g db = (some e, g, db))
    ∧ (g.product.in_stock_quantity ≤ 0 →
        GiftItem.purchase g db = (some Err.outOfStock, g, db))
    ∧ (0 < g.product.in_stock_quantity →
        (GiftItem.purchase g db).1 = none
        ∧ (GiftItem.purchase g db).2.1.purchased = true
        ∧ (GiftItem.purchase g db).2.2 =
            DB.updateGiftPurchased
              (DB.updateProductStock db g.product.product_id
                (g.product.in_stock_quantity - 1))
              g.gift_id 1
        ∧ ((∃ r ∈ db.wedding_gift, r.rowid = g.gift_id) →
            ((GiftItem.purchase g db).2.2).storedPurchased g.gift_id = some 1)) := by
  unfold GiftItem.purchase Product.purchase
  by_cases hq : 0 < g.product.in_stock_quantity
  · rw [if_pos hq]
    refine ⟨fun e he => by simp at he, fun h0 => absurd hq (by omega),
      fun _ => ⟨rfl, rfl, rfl, ?_⟩⟩
    rintro ⟨r, hr, he⟩
    have hsome : (db.wedding_gift.find? fun r => r.rowid == g.gift_id).isSome :=
      List.find?_isSome.mpr ⟨r, hr, by simp [he]⟩
    obtain ⟨r2, hr2⟩ := Option.isSome_iff_exists.mp hsome
    show (DB.storedPurchased _ _) = _
    rw [storedPurchased_updateGiftPurchased]
    rw [show (DB.updateProductStock db g.product.product_id
          (g.product.in_stock_quantity - 1)).storedPurchased g.gift_id
        = db.storedPurchased g.gift_id from rfl]
    unfold DB.storedPurchased
    rw [hr2]
    simp
  · rw [if_neg hq]
    exact ⟨fun e he => by cases he; rfl, fun _ => rfl, fun h => absurd h hq⟩

/-- The database component of `Product.purchase` as one equation. -/
theorem productPurchase_db_eq (p : Product) (db : DB) :
    (Product.purchase p db).2.2 =
      if 0 < p.in_stock_quantity then
        DB.updateProductStock db p.product_id (p.in_stock_quantity - 1)
      else db := by
  unfold Product.purchase
  by_cases hq : 0 < p.in_stock_quantity
  · rw [if_pos hq, if_pos hq]
  · rw [if_neg hq, if_neg hq]

/-- The database component of `GiftItem.purchase` as one equation. -/
theorem giftPurchase_db_eq (g : GiftItem) (db : DB) :
    (GiftItem.purchase g db).2.2 =
      if 0 < g.product.in_stock_quantity then
        DB.updateGiftPurchased
          (DB.updateProductStock db g.product.product_id (g.product.in_stock_quantity - 1))
          g.gift_id 1
      else db := by
  unfold GiftItem.purchase Product.purchase
  by_cases hq : 0 < g.product.in_stock_quantity
  · rw [if_pos hq, if_pos hq]
  · rw [if_neg hq, if_neg hq]

/-- The factory returns a gift with `purchased = false` and writes a row
with `purchased = 0` under the fresh rowid. -/
theorem new_gift_initially_false (db : DB) (p : Product) :
    (GiftItem.get_new_gift_item db p).1.purchased = false
    ∧ (GiftItem.get_new_gift_item db p).2.storedPurchased
        (GiftItem.get_new_gift_item db p).1.gift_id = some 0 := by
  constructor
  · rfl
  · show ((db.wedding_gift ++ [(⟨db.nextGiftRowid, p.product_id, 0⟩ : GiftRow)]).find?
        (fun r => r.rowid == db.nextGiftRowid)).map GiftRow.purchased = some (0 : Int)
    have hnone : db.wedding_gift.find? (fun r => r.rowid == db.nextGiftRowid) = none := by
      rw [List.find?_eq_none]
      intro r hr
      have hle := mem_le_foldlMax db.wedding_gift 0 r hr
      simp only [beq_iff_eq, DB.nextGiftRowid]
      omega
    rw [List.find?_append, hnone, Option.none_or]
    simp [List.find?]

/-- A positive stored `purchased` flag stays positive across every core
operation (while its row exists). -/
theorem stored_monotone (op : CoreOp) (db : DB) (gid v : Int)
    (hv : db.storedPurchased gid = some v) (hpos : 0 < v) :
    ∀ v2, (op.applyDB db).storedPurchased gid = some v2 → 0 < v2 := by
  intro v2 h2
  cases op with
  | productPurchase p =>
    rw [show (CoreOp.productPurchase p).applyDB db = (Product.purchase p db).2.2 from rfl,
        productPurchase_db_eq] at h2
    by_cases hq : 0 < p.in_stock_quantity
    · rw [if_pos hq, storedPurchased_updateProductStock, hv] at h2
      cases h2; exact hpos
    · rw [if_neg hq, hv] at h2
      cases h2; exact hpos
  | giftPurchase g =>
    rw [show (CoreOp.giftPurchase g).applyDB db = (GiftItem.purchase g db).2.2 from rfl,
        giftPurchase_db_eq] at h2
    by_cases hq : 0 < g.product.in_stock_quantity
    · rw [if_pos hq, storedPurchased_updateGiftPurchased,
          storedPurchased_updateProductStock, hv] at h2
      simp only [Option.map_some', Option.some.injEq] at h2
      by_cases hg : gid = g.gift_id
      · rw [if_pos hg] at h2; omega
      · rw [if_neg hg] at h2; omega
    · rw [if_neg hq, hv] at h2
      cases h2; exact hpos
  | newGift p =>
    have happ : (CoreOp.newGift p).applyDB db =
        { db with wedding_gift :=
            db.wedding_gift ++ [⟨db.nextGiftRowid, p.product_id, 0⟩] } := rfl
    rw [happ] at h2
    simp only [DB.storedPurchased] at h2 hv
    rw [List.find?_append] at h2
    obtain ⟨r0, hr0, hr0v⟩ := Option.map_eq_some'.mp hv
    rw [hr0] at h2
    rw [show (some r0).or ([(⟨db.nextGiftRowid, p.product_id, 0⟩ : GiftRow)].find?
          fun r => r.rowid == gid) = some r0 from rfl] at h2
    simp only [Option.map_some', Option.some.injEq] at h2
    omega
  | removeGift g =>
    have happ : (CoreOp.removeGift g).applyDB db =
        { db with wedding_gift :=
            db.wedding_gift.filter fun r => decide (r.rowid ≠ g.gift_id) } := rfl
    rw [happ] at h2
    simp only [DB.storedPurchased] at h2 hv
    by_cases hg : gid = g.gift_id
    · rw [hg] at h2
      rw [find?_filter_gone] at h2
      simp at h2
    · rw [find?_filter_keep _ _ _ hg, hv] at h2
      cases h2; exact hpos

/-- `GiftItem.purchase` never clears an in-memory `purchased` flag. -/
theorem purchased_memory_monotone (g : GiftItem) (db : DB) (h : g.purchased = true) :
    (GiftItem.purchase g db).2.1.purchased = true := by
  unfold GiftItem.purchase Product.purchase
  by_cases hq : 0 < g.product.in_stock_quantity
  · rw [if_pos hq]
  · rw [if_neg hq]; exact h

/-- C3: every `GiftItem` created through the factory has `purchased =
false`, both in the returned object and in the inserted row; no core
operation (a product purchase, a gift purchase, creating or removing a
gift) ever takes a stored positive `purchased` flag back to a
non-positive one while the row exists; and the in-memory flag set by a
purchase is never cleared by a purchase — the flag only moves from false
to true. -/
theorem giftitem_flag_monotone_spec :
    (∀ (db : DB) (p : Product),
        (GiftItem.get_new_gift_item db p).1.purchased = false
        ∧ (GiftItem.get_new_gift_item db p).2.storedPurchased
            (GiftItem.get_new_gift_item db p).1.gift_id = some 0)
    ∧ (∀ (op : CoreOp) (db : DB) (gid v : Int),
        db.storedPurchased gid = some v → 0 < v →
        ∀ v2, (op.applyDB db).storedPurchased gid = some v2 → 0 < v2)
    ∧ (∀ (g : GiftItem) (db : DB), g.purchased = true →
        (GiftItem.purchase g db).2.1.purchased = true) :=
  ⟨fun db p => new_gift_initially_false db p,
   fun op db gid v hv hpos => stored_monotone op db gid v hv hpos,
   fun g db h => purchased_memory_monotone g db h⟩

/-- C4: the purchased/not-purchased queries of `WeddingList` are pure
filters over the current membership, characterised by each member's
current `purchased` flag; their results are disjoint, together they are a
permutation of the whole list, and each preserves the list order (is a
sublist); the list itself is not changed (the queries are functions of the
list value). -/
theorem weddinglist_partition_spec (l : List GiftItem) :
    (∀ g, g ∈ WeddingList.get_purchased_gift l ↔ (g ∈ l ∧ g.purchased = true))
    ∧ (∀ g, g ∈ WeddingList.get_non_purchased_gift l ↔ (g ∈ l ∧ g.purchased = false))
    ∧ (∀ g, g ∈ WeddingList.get_purchased_gift l → g ∉ WeddingList.get_non_purchased_gift l)
    ∧ List.Perm (WeddingList.get_purchased_gift l ++ WeddingList.get_non_purchased_gift l) l
    ∧ List.Sublist (WeddingList.get_purchased_gift l) l
    ∧ List.Sublist (WeddingList.get_non_purchased_gift l) l := by
  refine ⟨?_, ?_, ?_, ?_, ?_, ?_⟩
  · intro g; simp [WeddingList.get_purchased_gift, List.mem_filter]
  · intro g; simp [WeddingList.get_non_purchased_gift, List.mem_filter]
  · intro g hg hng
    have h1 := (List.mem_filter.mp hg).2
    have h2 := (List.mem_filter.mp hng).2
    rw [h1] at h2
    cases h2
  · exact List.filter_append_perm _ l
  · exact List.filter_sublist l
  · exact List.filter_sublist l

/-- Filtering the repository by `product_id` is filtering the rows by
`rowid` (the loader maps `rowid` to `product_id`). -/
theorem filter_pid_map (l : List ProductRow) (pid : Int) :
    (l.map rowProduct).filter (fun p => p.product_id == pid) =
      (l.filter fun r => r.rowid == pid).map rowProduct := by
  induction l with
  | nil => rfl
  | cons r l ih =>
    by_cases h : r.rowid = pid
    · simp only [List.map_cons, List.filter_cons]
      rw [show (rowProduct r).product_id = r.rowid from rfl]
      by_cases hb : (r.rowid == pid) <;> simp [hb, ih]
    · simp only [List.map_cons, List.filter_cons]
      rw [show (rowProduct r).product_id = r.rowid from rfl]
      have hb : (r.rowid == pid) = false := by simpa using h
      simp [hb, ih]

/-- When a row with the requested identity exists, the lookup returns a
product carrying that identity. -/
theorem get_product_by_id_ok (db : DB) (pid : Int)
    (h : ∃ r ∈ db.products, r.rowid = pid) :
    ∃ p, Product.get_product_by_id db pid = .ok p ∧ p.product_id = pid := by
  unfold Product.get_product_by_id Product.get_gift_repository
  rw [filter_pid_map]
  obtain ⟨r, hr, he⟩ := h
  cases hF : db.products.filter fun r => r.rowid == pid with
  | nil =>
    exfalso
    have : r ∈ db.products.filter fun r => r.rowid == pid :=
      List.mem_filter.mpr ⟨hr, by simp [he]⟩
    rw [hF] at this
    cases this
  | cons r0 t =>
    refine ⟨rowProduct r0, rfl, ?_⟩
    have hr0 : r0 ∈ db.products.filter fun r => r.rowid == pid := by
      rw [hF]; exact List.mem_cons_self r0 t
    have := (List.mem_filter.mp hr0).2
    simpa [rowProduct] using this

/-- When no row has the requested identity, the lookup raises
`UnknownProduct`. -/
theorem get_product_by_id_error (db : DB) (pid : Int)
    (h : ∀ r ∈ db.products, r.rowid ≠ pid) :
    Product.get_product_by_id db pid = .error Err.unknownProduct := by
  unfold Product.get_product_by_id Product.get_gift_repository
  rw [filter_pid_map]
  rw [List.filter_eq_nil_iff.mpr (fun r hr => by simpa using h r hr)]
  rfl

/-- A successful lookup always returns a product with the requested
identity. -/
theorem get_product_by_id_ok_pid (db : DB) (pid : Int) (p : Product)
    (h : Product.get_product_by_id db pid = .ok p) : p.product_id = pid := by
  unfold Product.get_product_by_id Product.get_gift_repository at h
  rw [filter_pid_map] at h
  cases hF : db.products.filter fun r => r.rowid == pid with
  | nil => rw [hF] at h; cases h
  | cons r0 t =>
    rw [hF] at h
    simp only [List.map_cons] at h
    cases h
    have hr0 : r0 ∈ db.products.filter fun r => r.rowid == pid := by
      rw [hF]; exact List.mem_cons_self r0 t
    have := (List.mem_filter.mp hr0).2
    simpa [rowProduct] using this

/-- Loading one gift row succeeds with the row's identity fields when its
product reference resolves. -/
theorem giftOfRow_ok (db : DB) (g : GiftRow)
    (h : ∃ r ∈ db.products, r.rowid = g.product_id) :
    ∃ b, giftOfRow db g = .ok b ∧ b.gift_id = g.rowid
      ∧ b.product.product_id = g.product_id := by
  obtain ⟨p, hp, hpid⟩ := get_product_by_id_ok db g.product_id h
  exact ⟨⟨g.rowid, p, decide (0 < g.purchased)⟩, by unfold giftOfRow; rw [hp], rfl, hpid⟩

/-- Loading one gift row raises `UnknownProduct` when its product
reference does not resolve. -/
theorem giftOfRow_error (db : DB) (g : GiftRow)
    (h : ∀ r ∈ db.products, r.rowid ≠ g.product_id) :
    giftOfRow db g = .error Err.unknownProduct := by
  unfold giftOfRow
  rw [get_product_by_id_error db g.product_id h]

/-- Loading one gift row either succeeds or raises `UnknownProduct` —
those are its only outcomes. -/
theorem giftOfRow_ok_or_unknown (db : DB) (g : GiftRow) :
    (∃ b, giftOfRow db g = .ok b) ∨ giftOfRow db g = .error Err.unknownProduct := by
  by_cases h : ∃ r ∈ db.products, r.rowid = g.product_id
  · obtain ⟨b, hb, _, _⟩ := giftOfRow_ok db g h
    exact Or.inl ⟨b, hb⟩
  · push_neg at h
    exact Or.inr (giftOfRow_error db g h)

/-- When every element builds, the comprehension returns them all, in
order. -/
theorem mapExcept_ok_of_forall {α β : Type} (f : α → Except Err β) (l : List α)
    (h : ∀ a ∈ l, ∃ b, f a = .ok b) :
    ∃ bs, mapExcept f l = .ok bs ∧ List.Forall₂ (fun a b => f a = .ok b) l bs := by
  induction l with
  | nil => exact ⟨[], rfl, List.Forall₂.nil⟩
  | cons a l ih =>
    obtain ⟨b, hb⟩ := h a (List.mem_cons_self a l)
    obtain ⟨bs, hbs, hf⟩ := ih (fun x hx => h x (List.mem_cons_of_mem a hx))
    refine ⟨b :: bs, ?_, List.Forall₂.cons hb hf⟩
    unfold mapExcept
    rw [hb, hbs]

/-- When some element raises `UnknownProduct` (and raising it is the only
way an element can fail), the comprehension raises `UnknownProduct`. -/
theorem mapExcept_error_of_exists {α β : Type} (f : α → Except Err β) (l : List α)
    (hall : ∀ a ∈ l, (∃ b, f a = .ok b) ∨ f a = .error Err.unknownProduct)
    (hex : ∃ a ∈ l, f a = .error Err.unknownProduct) :
    mapExcept f l = .error Err.unknownProduct := by
  induction l with
  | nil => obtain ⟨a, ha, _⟩ := hex; cases ha
  | cons a l ih =>
    rcases hall a (List.mem_cons_self a l) with ⟨b, hb⟩ | he
    · have hex2 : ∃ x ∈ l, f x = .error Err.unknownProduct := by
        obtain ⟨x, hx, hxe⟩ := hex
        rcases List.mem_cons.mp hx with rfl | hx2
        · rw [hb] at hxe; cases hxe
        · exact ⟨x, hx2, hxe⟩
      have := ih (fun x hx => hall x (List.mem_cons_of_mem a hx)) hex2
      unfold mapExcept
      rw [hb, this]
    · unfold mapExcept
      rw [he]

/-- A loaded gift list carries the gift rows' identities and product
references, in row order. -/
theorem forall2_gift_fields (db : DB) (rows : List GiftRow) (bs : List GiftItem)
    (h : List.Forall₂ (fun a b => giftOfRow db a = .ok b) rows bs) :
    bs.map GiftItem.gift_id = rows.map GiftRow.rowid
    ∧ bs.map (fun g => g.product.product_id) = rows.map GiftRow.product_id := by
  induction h with
  | nil => exact ⟨rfl, rfl⟩
  | cons hab hrest ih =>
    rename_i a b l1 l2
    have hfields : b.gift_id = a.rowid ∧ b.product.product_id = a.product_id := by
      unfold giftOfRow at hab
      cases hp : Product.get_product_by_id db a.product_id with
      | error e => rw [hp] at hab; cases hab
      | ok p =>
        rw [hp] at hab
        cases hab
        exact ⟨rfl, get_product_by_id_ok_pid db a.product_id p hp⟩
    simp only [List.map_cons, hfields.1, hfields.2, ih.1, ih.2]
    exact ⟨trivial, trivial⟩

/-- C5: `Product.get_product_by_id` returns a product with the requested
identity when a row with that identity exists, and raises
`UnknownProduct` when none does; consequently
`WeddingList.get_wedding_gifts` succeeds — returning the gifts in row
order, each carrying its row's identity and product reference — exactly
when every gift row's product reference resolves, and raises
`UnknownProduct` whenever some gift row references an absent product
identity (the referential-integrity failure is surfaced, not hidden). -/
theorem product_lookup_and_gift_load_spec (db : DB) (pid : Int) :
    ((∃ r ∈ db.products, r.rowid = pid) →
        ∃ p, Product.get_product_by_id db pid = .ok p ∧ p.product_id = pid)
    ∧ ((∀ r ∈ db.products, r.rowid ≠ pid) →
        Product.get_product_by_id db pid = .error Err.unknownProduct)
    ∧ ((∀ g ∈ db.wedding_gift, ∃ r ∈ db.products, r.rowid = g.product_id) →
        ∃ gifts, WeddingList.get_wedding_gifts db = .ok gifts
          ∧ gifts.map GiftItem.gift_id = db.wedding_gift.map GiftRow.rowid
          ∧ gifts.map (fun g => g.product.product_id) = db.wedding_gift.map GiftRow.product_id)
    ∧ ((∃ g ∈ db.wedding_gift, ∀ r ∈ db.products, r.rowid ≠ g.product_id) →
        WeddingList.get_wedding_gifts db = .error Err.unknownProduct) := by
  refine ⟨get_product_by_id_ok db pid, get_product_by_id_error db pid, ?_, ?_⟩
  · intro h
    have hall : ∀ g ∈ db.wedding_gift, ∃ b, giftOfRow db g = .ok b := by
      intro g hg
      obtain ⟨b, hb, _, _⟩ := giftOfRow_ok db g (h g hg)
      exact ⟨b, hb⟩
    obtain ⟨bs, hbs, hf⟩ := mapExcept_ok_of_forall (giftOfRow db) db.wedding_gift hall
    obtain ⟨h1, h2⟩ := forall2_gift_fields db db.wedding_gift bs hf
    exact ⟨bs, hbs, h1, h2⟩
  · intro h
    obtain ⟨g, hg, hnone⟩ := h
    exact mapExcept_error_of_exists (giftOfRow db) db.wedding_gift
      (fun x _ => giftOfRow_ok_or_unknown db x)
      ⟨g, hg, giftOfRow_error db g hnone⟩

/-- C6 counterexample: the claim as stated is false.  `cexGiftB` has the
same identity (`gift_id` 1) as the sole member `cexGiftA` of the list, and
that member's product is in stock, yet `purchase_gift` raises the
Not-In-List error and performs no purchase and no store write — because
`list.index` matches by whole-object equality, not by identity. -/
theorem purchase_gift_identity_cex :
    cexGiftA.gift_id = cexGiftB.gift_id
    ∧ 0 < cexGiftA.product.in_stock_quantity
    ∧ WeddingList.purchase_gift [cexGiftA] cexGiftB exDB =
        (some Err.notInList, [cexGiftA], exDB) := by decide

/-- C6 (amended): `WeddingList.purchase_gift` locates the first member
EQUAL to the target (whole-object equality, not mere identity equality)
and calls its `purchase` — the purchase of the target itself, since they
are equal; when no member is equal to the target it fails with the
distinct Not-In-List error, purchases no member and leaves the store
unchanged — it never silently no-ops. -/
theorem purchase_gift_match_spec (l : List GiftItem) (g : GiftItem) (db : DB) :
    ((∀ a ∈ l, a ≠ g) →
        WeddingList.purchase_gift l g db = (some Err.notInList, l, db))
    ∧ (g ∈ l →
        ∃ l1 l2, l = l1 ++ g :: l2 ∧ g ∉ l1
          ∧ WeddingList.purchase_gift l g db =
              ((GiftItem.purchase g db).1,
               l1 ++ (GiftItem.purchase g db).2.1 :: l2,
               (GiftItem.purchase g db).2.2)) := by
  induction l with
  | nil =>
    exact ⟨fun _ => rfl, fun h => absurd h (List.not_mem_nil g)⟩
  | cons a l ih =>
    constructor
    · intro h
      have hag : ¬ a = g := h a (List.mem_cons_self a l)
      unfold WeddingList.purchase_gift
      rw [if_neg hag]
      rw [ih.1 (fun x hx => h x (List.mem_cons_of_mem a hx))]
    · intro hg
      by_cases hag : a = g
      · subst hag
        refine ⟨[], l, rfl, List.not_mem_nil a, ?_⟩
        unfold WeddingList.purchase_gift
        rw [if_pos rfl]
        rfl
      · obtain ⟨l1, l2, hsplit, hnot, heq⟩ :=
          ih.2 ((List.mem_cons.mp hg).resolve_left fun e => hag e.symm)
        refine ⟨a :: l1, l2, by rw [hsplit]; rfl, ?_, ?_⟩
        · intro hmem
          rcases List.mem_cons.mp hmem with h | h
          · exact hag h.symm
          · exact hnot h
        · unfold WeddingList.purchase_gift
          rw [if_neg hag, heq]
          rfl

/-- C7: a product description carrying neither an `int_price` field nor a
parseable `price` string fails construction with an error (`priceMissing`
when the string field is absent, `parseFailure` when it is unparseable),
and no `Product` value is ever returned to the caller. -/
theorem product_construction_no_price (d : ProductDict)
    (hint : d.int_price = none)
    (hstr : ∀ s, d.price = some s → priceMatch s.data = none) :
    (∃ e, Product.ofDict d = .error e) ∧ ∀ p, Product.ofDict d ≠ .ok p := by
  have heq : Product.ofDict d =
      .error (match d.price with | none => Err.priceMissing | some _ => Err.parseFailure) := by
    simp only [Product.ofDict, hint]
    cases hp : d.price with
    | none => rfl
    | some s => simp only [hstr s hp]
  rw [heq]
  exact ⟨⟨_, rfl⟩, fun p h => Except.noConfusion h⟩

/-- C7 witness: the theorem applied to `wDictNone`, which has neither
price field. -/
theorem product_construction_no_price_witness :
    (∃ e, Product.ofDict wDictNone = .error e) ∧ ∀ p, Product.ofDict wDictNone ≠ .ok p :=
  product_construction_no_price wDictNone rfl (fun _ h => Option.noConfusion h)

/-- The longest digit prefix of `digits ++ nonDigit :: rest` is exactly
`digits` (takeWhile and dropWhile both computed). -/
theorem takeWhile_append_run (p : Char → Bool) (ds : List Char) (x : Char) (rest : List Char)
    (hds : ∀ c ∈ ds, p c = true) (hx : p x = false) :
    (ds ++ x :: rest).takeWhile p = ds ∧ (ds ++ x :: rest).dropWhile p = x :: rest := by
  induction ds with
  | nil => simp [List.takeWhile_cons, List.dropWhile_cons, hx]
  | cons c cs ih =>
    have hc : p c = true := hds c (List.mem_cons_self c cs)
    have ih2 := ih fun d hd => hds d (List.mem_cons_of_mem c hd)
    simp [List.takeWhile_cons, List.dropWhile_cons, hc, ih2.1, ih2.2]

/-- The regex embedding accepts exactly the shape
`digits ++ "." ++ digits ++ "GBP" ++ anything`, yielding the two digit
groups' values. -/
theorem priceMatch_shape (ds1 ds2 rest : List Char)
    (h1 : ds1 ≠ []) (h1d : ∀ c ∈ ds1, c.isDigit = true)
    (h2 : ds2 ≠ []) (h2d : ∀ c ∈ ds2, c.isDigit = true) :
    priceMatch (ds1 ++ '.' :: (ds2 ++ 'G' :: 'B' :: 'P' :: rest)) =
      some (digitsVal ds1, digitsVal ds2) := by
  have hdot : ('.' : Char).isDigit = false := by decide
  have hG : ('G' : Char).isDigit = false := by decide
  obtain ⟨ht1, hd1⟩ := takeWhile_append_run Char.isDigit ds1 '.'
    (ds2 ++ 'G' :: 'B' :: 'P' :: rest) h1d hdot
  obtain ⟨ht2, hd2⟩ := takeWhile_append_run Char.isDigit ds2 'G'
    ('B' :: 'P' :: rest) h2d hG
  have he1 : ds1.isEmpty = false := by
    cases ds1 with
    | nil => exact absurd rfl h1
    | cons a l => rfl
  have he2 : ds2.isEmpty = false := by
    cases ds2 with
    | nil => exact absurd rfl h2
    | cons a l => rfl
  simp only [priceMatch, ht1, hd1, he1, Bool.false_eq_true, if_false, ht2, hd2, he2,
    List.take, if_pos]

/-- C8: a price string `whole.twoDigitsGBP` (the system's single currency
code) normalizes to `whole*100 + fractional` minor units — only the
number is kept, the `Product` having no currency field; in particular
`"12.50GBP"` gives price 1250 and `"0.01GBP"` gives price 1; and a
directly supplied integer minor-unit `int_price` of 999 passes through as
price 999. -/
theorem price_normalization_spec :
    (∀ (ds1 : List Char) (c1 c2 : Char) (d : ProductDict),
        ds1 ≠ [] → (∀ c ∈ ds1, c.isDigit = true) →
        c1.isDigit = true → c2.isDigit = true →
        d.int_price = none →
        d.price = some (String.mk (ds1 ++ '.' :: c1 :: c2 :: ['G', 'B', 'P'])) →
        Product.ofDict d = .ok ⟨d.id, d.name, d.brand,
          ((digitsVal ds1 * 100 + digitsVal [c1, c2] : ℕ) : ℚ), d.in_stock_quantity⟩)
    ∧ (∀ d : ProductDict, d.int_price = none → d.price = some "12.50GBP" →
        ∃ p, Product.ofDict d = .ok p ∧ p.price = 1250)
    ∧ (∀ d : ProductDict, d.int_price = none → d.price = some "0.01GBP" →
        ∃ p, Product.ofDict d = .ok p ∧ p.price = 1)
    ∧ (∀ d : ProductDict, d.int_price = some 999 →
        ∃ p, Product.ofDict d = .ok p ∧ p.price = 999) := by
  refine ⟨?_, ?_, ?_, ?_⟩
  · intro ds1 c1 c2 d h1 h1d hc1 hc2 hint hp
    have hm : priceMatch (String.mk (ds1 ++ '.' :: c1 :: c2 :: ['G', 'B', 'P'])).data =
        some (digitsVal ds1, digitsVal [c1, c2]) := by
      show priceMatch (ds1 ++ '.' :: c1 :: c2 :: ['G', 'B', 'P']) = _
      have hd2 : ∀ c ∈ [c1, c2], c.isDigit = true := by
        intro c hc
        rcases List.mem_cons.mp hc with rfl | hc
        · exact hc1
        · rcases List.mem_cons.mp hc with rfl | hc
          · exact hc2
          · cases hc
      exact priceMatch_shape ds1 [c1, c2] [] h1 h1d (by simp) hd2
    simp only [Product.ofDict, hint, hp, hm]
  · intro d hint hp
    refine ⟨⟨d.id, d.name, d.brand, ((1250 : ℕ) : ℚ), d.in_stock_quantity⟩, ?_, by norm_num⟩
    have hm : priceMatch "12.50GBP".data = some (12, 50) := by decide
    simp only [Product.ofDict, hint, hp, hm]
  · intro d hint hp
    refine ⟨⟨d.id, d.name, d.brand, ((1 : ℕ) : ℚ), d.in_stock_quantity⟩, ?_, by norm_num⟩
    have hm : priceMatch "0.01GBP".data = some (0, 1) := by decide
    simp only [Product.ofDict, hint, hp, hm]
  · intro d hd
    exact ⟨⟨d.id, d.name, d.brand, 999, d.in_stock_quantity⟩,
      by simp only [Product.ofDict, hd], rfl⟩

/-- C10: the parser matches only a prefix and puts no bound on the digit
groups: any string `digits ++ "." ++ digits ++ "GBP" ++ trailing` is
accepted, the price being `whole*100` plus the value of ALL fractional
digits — so `"12.5GBP"` yields 1205 and `"12.500GBP"` yields 1700 rather
than being rejected — while any other shape of price string (e.g. the
non-GBP `"12.50USD"`) makes construction fail. -/
theorem price_match_prefix_spec :
    (∀ (ds1 ds2 rest : List Char) (d : ProductDict),
        ds1 ≠ [] → (∀ c ∈ ds1, c.isDigit = true) →
        ds2 ≠ [] → (∀ c ∈ ds2, c.isDigit = true) →
        d.int_price = none →
        d.price = some (String.mk (ds1 ++ '.' :: (ds2 ++ 'G' :: 'B' :: 'P' :: rest))) →
        Product.ofDict d = .ok ⟨d.id, d.name, d.brand,
          ((digitsVal ds1 * 100 + digitsVal ds2 : ℕ) : ℚ), d.in_stock_quantity⟩)
    ∧ (∃ p, Product.ofDict dict125 = .ok p ∧ p.price = 1205)
    ∧ (∃ p, Product.ofDict dict12500 = .ok p ∧ p.price = 1700)
    ∧ priceMatch "12.50USD".data = none
    ∧ Product.ofDict dictUSD = .error Err.parseFailure
    ∧ (∀ (d : ProductDict) (s : String), d.int_price = none → d.price = some s →
        priceMatch s.data = none → Product.ofDict d = .error Err.parseFailure) := by
  refine ⟨?_, ?_, ?_, by decide, ?_, ?_⟩
  · intro ds1 ds2 rest d h1 h1d h2 h2d hint hp
    have hm : priceMatch (String.mk (ds1 ++ '.' :: (ds2 ++ 'G' :: 'B' :: 'P' :: rest))).data =
        some (digitsVal ds1, digitsVal ds2) :=
      priceMatch_shape ds1 ds2 rest h1 h1d h2 h2d
    simp only [Product.ofDict, hint, hp, hm]
  · refine ⟨⟨2, "A", "B", ((1205 : ℕ) : ℚ), 1⟩, ?_, by norm_num⟩
    have hm : priceMatch "12.5GBP".data = some (12, 5) := by decide
    simp only [Product.ofDict, dict125, hm]
  · refine ⟨⟨3, "A", "B", ((1700 : ℕ) : ℚ), 1⟩, ?_, by norm_num⟩
    have hm : priceMatch "12.500GBP".data = some (12, 500) := by decide
    simp only [Product.ofDict, dict12500, hm]
  · have hm : priceMatch "12.50USD".data = none := by decide
    simp only [Product.ofDict, dictUSD, hm]
  · intro d s hint hp hm
    simp only [Product.ofDict, hint, hp, hm]

/-- C9, the bootstrap round trip evaluated at its failing input: the
catalogue description with price string `"12.50GBP"` constructs a product
with the integer minor-unit price 1250, but `init_db` writes `price /
100.` to the `products` table, so reloading the store through
`Product.get_gift_repository` yields the price `25/2` (= 12.5), not the
integer minor-unit 1250 the specification requires. -/
theorem bootstrap_price_roundtrip_bug :
    Product.ofDict bootDict = .ok bootProduct
    ∧ bootProduct.price = 1250
    ∧ (Product.get_gift_repository (init_db [bootProduct])).map Product.price = [(25 : ℚ) / 2]
    ∧ ((25 : ℚ) / 2 ≠ 1250) := by
  refine ⟨?_, rfl, ?_, by norm_num⟩
  · have hm : priceMatch "12.50GBP".data = some (12, 50) := by decide
    simp only [Product.ofDict, bootDict, hm]
    norm_num [bootProduct]
  · show [(1250 : ℚ) / 100] = [(25 : ℚ) / 2]
    norm_num

end WeddingLister
